import Mathlib

set_option maxRecDepth 40000
attribute [local semireducible] Rat.add Rat.sub Rat.mul Rat.inv

/-!
Shallow embedding of the forex-analytics-dashboard indicator pipeline.
Prices are modelled as exact rationals (or reals where square roots occur);
IEEE NaN propagation is modelled by `Option` (none = NaN) and, where
infinities matter, by the extended type `EF`.
-/

/-- Rolling mean over a trailing window, mirroring
`pd.Series(data).rolling(window=period).mean()`: defined from index
`period - 1` on, NaN (`none`) before. -/
def rollingMean (l : List ℚ) (p : ℕ) (i : ℕ) : Option ℚ :=
  if 1 ≤ p ∧ p ≤ i + 1 ∧ i < l.length then
    some (((l.drop (i + 1 - p)).take p).sum / (p : ℚ))
  else none

/-- Simple moving average at the last index, as used by `analyze`
(`self.sma(data, period)[-1]`). -/
def smaLast (l : List ℚ) (p : ℕ) : Option ℚ :=
  rollingMean l p (l.length - 1)

/-- Recursive tail of the exponential moving average
`ema[i] = a*x[i] + (1-a)*ema[i-1]`. -/
def emaRec (a : ℚ) (prev : ℚ) : List ℚ → List ℚ
  | [] => []
  | x :: xs => (a * x + (1 - a) * prev) :: emaRec a (a * x + (1 - a) * prev) xs

/-- Exponential moving average, mirroring
`pd.Series(data).ewm(span=period, adjust=False).mean()`:
seeded from the first value, smoothing factor `2/(period+1)`. -/
def emaList (period : ℕ) (l : List ℚ) : List ℚ :=
  match l with
  | [] => []
  | x :: xs => x :: emaRec (2 / ((period : ℚ) + 1)) x xs

/-- Last EMA value, as used by `analyze` (`self.ema(data, period)[-1]`). -/
def emaLast (period : ℕ) (l : List ℚ) : Option ℚ :=
  (emaList period l).getLast?

/-- Successive differences `prices.diff()`: entry `j` is `x[j+1] - x[j]`
(the NaN at position 0 of the pandas result is handled by the callers). -/
def deltas (l : List ℚ) : List ℚ :=
  List.zipWith (fun a b => a - b) l.tail l

/-- Gains series `delta.where(delta > 0, 0)`: the leading NaN of `diff`
fails the `> 0` test, so position 0 holds 0. -/
def gainsList (l : List ℚ) : List ℚ :=
  match l with
  | [] => []
  | _ :: _ => 0 :: (deltas l).map (fun d => if 0 < d then d else 0)

/-- Losses series `(-delta).where(delta < 0, 0)`: position 0 holds 0. -/
def lossesList (l : List ℚ) : List ℚ :=
  match l with
  | [] => []
  | _ :: _ => 0 :: (deltas l).map (fun d => if d < 0 then -d else 0)

/-- RSI at index `i`: `100 - 100/(1 + avg_gain/avg_loss)` with float
semantics for the division: `avg_loss = 0` with positive `avg_gain` gives
`rs = +inf`, hence RSI exactly 100; `0/0` gives NaN (`none`). -/
def rsiAt (l : List ℚ) (p : ℕ) (i : ℕ) : Option ℚ :=
  match rollingMean (gainsList l) p i, rollingMean (lossesList l) p i with
  | some g, some lo =>
      if lo = 0 then (if g = 0 then none else some 100)
      else some (100 - 100 / (1 + g / lo))
  | _, _ => none

/-- MACD line: `ema(fast) - ema(slow)`, elementwise. -/
def macdLine (l : List ℚ) (fast slow : ℕ) : List ℚ :=
  List.zipWith (fun a b => a - b) (emaList fast l) (emaList slow l)

/-- MACD signal line: EMA of the MACD line. -/
def macdSignalLine (l : List ℚ) (fast slow sp : ℕ) : List ℚ :=
  emaList sp (macdLine l fast slow)

/-- MACD histogram: `macd_line - signal_line`, elementwise. -/
def macdHistogram (l : List ℚ) (fast slow sp : ℕ) : List ℚ :=
  List.zipWith (fun a b => a - b) (macdLine l fast slow) (macdSignalLine l fast slow sp)

/-- Float comparison `a < b` on possibly-NaN rationals: any comparison
with NaN is false. -/
def oltQ : Option ℚ → Option ℚ → Bool
  | some a, some b => decide (a < b)
  | _, _ => false

/-- Float comparison `a < b` on possibly-NaN reals (Bollinger band values):
any comparison with NaN is false. -/
def oltR : Option ℝ → Option ℝ → Prop
  | some a, some b => a < b
  | _, _ => False

/-- Sample variance over a trailing window, mirroring
`pd.Series(data).rolling(window=period).std()` squared: `ddof = 1`, so a
window of size 1 is NaN. -/
def rollingVar (l : List ℚ) (p : ℕ) (i : ℕ) : Option ℚ :=
  if 2 ≤ p ∧ p ≤ i + 1 ∧ i < l.length then
    some ((((l.drop (i + 1 - p)).take p).map
      (fun x => (x - ((l.drop (i + 1 - p)).take p).sum / (p : ℚ)) ^ 2)).sum / ((p : ℚ) - 1))
  else none

/-- Rolling standard deviation: square root of the sample variance. -/
noncomputable def rollingStd (l : List ℚ) (p : ℕ) (i : ℕ) : Option ℝ :=
  (rollingVar l p i).map (fun v => Real.sqrt (v : ℝ))

/-- Bollinger middle band: the SMA, viewed as a real number. -/
def bollingerMiddle (l : List ℚ) (p : ℕ) (i : ℕ) : Option ℝ :=
  (rollingMean l p i).map (fun m => (m : ℝ))

/-- Bollinger upper band: `middle + std * std_dev`. -/
noncomputable def bollingerUpper (l : List ℚ) (p : ℕ) (k : ℚ) (i : ℕ) : Option ℝ :=
  match rollingMean l p i, rollingStd l p i with
  | some m, some s => some ((m : ℝ) + s * (k : ℝ))
  | _, _ => none

/-- Bollinger lower band: `middle - std * std_dev`. -/
noncomputable def bollingerLower (l : List ℚ) (p : ℕ) (k : ℚ) (i : ℕ) : Option ℝ :=
  match rollingMean l p i, rollingStd l p i with
  | some m, some s => some ((m : ℝ) - s * (k : ℝ))
  | _, _ => none

/-- Trend direction enum. -/
inductive Trend where
  | bullish : Trend
  | bearish : Trend
  | neutral : Trend
deriving DecidableEq

/-- Trading signal enum. -/
inductive Signal where
  | buy : Signal
  | sell : Signal
  | hold : Signal
  | neutral : Signal
deriving DecidableEq

/-- The indicator dictionary built by `TechnicalIndicators.analyze`; every
key is present, a value may be NaN (`none`). -/
structure IndicatorSnapshot where
  sma_20 : Option ℚ
  sma_50 : Option ℚ
  sma_200 : Option ℚ
  ema_12 : Option ℚ
  ema_26 : Option ℚ
  rsi : Option ℚ
  macd : Option ℚ
  macd_signal : Option ℚ
  macd_histogram : Option ℚ
  bb_upper : Option ℝ
  bb_middle : Option ℝ
  bb_lower : Option ℝ

/-- `TechnicalIndicators._determine_trend`: three binary votes
(`ema_12` vs `sma_20`, `sma_20` vs `sma_50`, `macd` vs `macd_signal`),
majority wins, tie gives neutral. -/
def determine_trend (ind : IndicatorSnapshot) : Trend :=
  let bullish1 : ℕ := if oltQ ind.sma_20 ind.ema_12 then 1 else 0
  let bearish1 : ℕ := if oltQ ind.sma_20 ind.ema_12 then 0 else 1
  let bullish2 : ℕ := bullish1 + (if oltQ ind.sma_50 ind.sma_20 then 1 else 0)
  let bearish2 : ℕ := bearish1 + (if oltQ ind.sma_50 ind.sma_20 then 0 else 1)
  let bullish3 : ℕ := bullish2 + (if oltQ ind.macd_signal ind.macd then 1 else 0)
  let bearish3 : ℕ := bearish2 + (if oltQ ind.macd_signal ind.macd then 0 else 1)
  if bearish3 < bullish3 then Trend.bullish
  else if bullish3 < bearish3 then Trend.bearish
  else Trend.neutral

open scoped Classical

/-- `TechnicalIndicators._generate_signal`: sequential score updates.
The Bollinger step reassigns `price = indicators.get('bb_middle', price)`,
so the band comparison is made against the middle band. -/
noncomputable def generate_signal (ind : IndicatorSnapshot) (rsi_val : Option ℚ) : Signal × ℤ :=
  let score1 : ℤ := if oltQ rsi_val (some 30) then 30
    else if oltQ (some 70) rsi_val then -30 else 0
  let score2 : ℤ := if oltQ ind.macd_signal ind.macd then score1 + 20 else score1 - 20
  let score3 : ℤ := if oltQ ind.sma_20 ind.ema_12 then score2 + 20 else score2 - 20
  let score4 : ℤ := if oltR ind.bb_middle ind.bb_lower then score3 + 15
    else if oltR ind.bb_upper ind.bb_middle then score3 - 15 else score3
  if 40 < score4 then (Signal.buy, min score4 95)
  else if score4 < -40 then (Signal.sell, min |score4| 95)
  else (Signal.hold, 50)

/-- Container for analysis results (the summary string is presentation
glue and is not modelled). -/
structure AnalysisResult where
  trend : Trend
  signal : Signal
  confidence : ℤ
  indicators : IndicatorSnapshot

/-- The indicator dictionary that `TechnicalIndicators.analyze` assembles
from a close-price series. -/
noncomputable def analyzeSnapshot (data : List ℚ) : IndicatorSnapshot where
  sma_20 := smaLast data 20
  sma_50 := smaLast data 50
  sma_200 := if 200 < data.length then smaLast data 200 else none
  ema_12 := emaLast 12 data
  ema_26 := emaLast 26 data
  rsi := rsiAt data 14 (data.length - 1)
  macd := (macdLine data 12 26).getLast?
  macd_signal := (macdSignalLine data 12 26 9).getLast?
  macd_histogram := (macdHistogram data 12 26 9).getLast?
  bb_upper := bollingerUpper data 20 2 (data.length - 1)
  bb_middle := bollingerMiddle data 20 (data.length - 1)
  bb_lower := bollingerLower data 20 2 (data.length - 1)

/-- `TechnicalIndicators.analyze`. -/
noncomputable def analyze (data : List ℚ) : AnalysisResult :=
  let ind := analyzeSnapshot data
  let sc := generate_signal ind ind.rsi
  { trend := determine_trend ind
    signal := sc.1
    confidence := sc.2
    indicators := ind }

/-- Extended float value: finite real, signed infinity, or NaN; used where
the source's float arithmetic can produce non-finite values. -/
inductive EF where
  | nan : EF
  | pinf : EF
  | ninf : EF
  | fin : ℝ → EF

namespace EF

/-- IEEE negation. -/
noncomputable def neg : EF → EF
  | nan => nan
  | pinf => ninf
  | ninf => pinf
  | fin x => fin (-x)

/-- IEEE addition: NaN absorbs, opposite infinities give NaN. -/
noncomputable def add : EF → EF → EF
  | nan, _ => nan
  | _, nan => nan
  | pinf, ninf => nan
  | ninf, pinf => nan
  | pinf, _ => pinf
  | _, pinf => pinf
  | ninf, _ => ninf
  | _, ninf => ninf
  | fin a, fin b => fin (a + b)

/-- IEEE subtraction. -/
noncomputable def sub (a b : EF) : EF := add a (neg b)

/-- IEEE multiplication: NaN absorbs, `0 * inf` is NaN. -/
noncomputable def mul : EF → EF → EF
  | nan, _ => nan
  | _, nan => nan
  | pinf, pinf => pinf
  | pinf, ninf => ninf
  | ninf, pinf => ninf
  | ninf, ninf => pinf
  | pinf, fin x => if x = 0 then nan else if 0 < x then pinf else ninf
  | fin x, pinf => if x = 0 then nan else if 0 < x then pinf else ninf
  | ninf, fin x => if x = 0 then nan else if 0 < x then ninf else pinf
  | fin x, ninf => if x = 0 then nan else if 0 < x then ninf else pinf
  | fin a, fin b => fin (a * b)

/-- IEEE division: `0/0` and `inf/inf` are NaN, `x/0` for `x ≠ 0` is a
signed infinity, finite over infinite is 0. -/
noncomputable def div : EF → EF → EF
  | nan, _ => nan
  | _, nan => nan
  | pinf, pinf => nan
  | pinf, ninf => nan
  | ninf, pinf => nan
  | ninf, ninf => nan
  | pinf, fin x => if 0 ≤ x then pinf else ninf
  | ninf, fin x => if 0 ≤ x then ninf else pinf
  | fin _, pinf => fin 0
  | fin _, ninf => fin 0
  | fin a, fin b =>
      if b = 0 then (if a = 0 then nan else if 0 < a then pinf else ninf)
      else fin (a / b)

/-- IEEE square root: NaN for negative arguments. -/
noncomputable def sqrtE : EF → EF
  | nan => nan
  | pinf => pinf
  | ninf => nan
  | fin x => if x < 0 then nan else fin (Real.sqrt x)

/-- `np.mean`: sum divided by length (NaN on an empty array via `0/0`). -/
noncomputable def meanE (l : List EF) : EF :=
  div (l.foldl add (fin 0)) (fin (l.length : ℝ))

/-- `np.std`: population standard deviation, the square root of the mean
squared deviation from the mean. -/
noncomputable def stdE (l : List EF) : EF :=
  sqrtE (meanE (l.map (fun x => mul (sub x (meanE l)) (sub x (meanE l)))))

end EF

/-- Round to nearest integer, ties to even (Python 3 `round`). -/
noncomputable def roundHalfEven (x : ℝ) : ℤ :=
  if Int.fract x < 1 / 2 then ⌊x⌋
  else if 1 / 2 < Int.fract x then ⌊x⌋ + 1
  else if Even ⌊x⌋ then ⌊x⌋ else ⌊x⌋ + 1

/-- Python `round(x, d)` on extended floats. -/
noncomputable def roundTo : EF → ℕ → EF
  | EF.nan, _ => EF.nan
  | EF.pinf, _ => EF.pinf
  | EF.ninf, _ => EF.ninf
  | EF.fin x, d => EF.fin ((roundHalfEven (x * 10 ^ d) : ℝ) / 10 ^ d)

/-- Payload of a successful `AIForecast.forecast` call. -/
structure ForecastData where
  current_price : EF
  periods : ℕ
  bullish : EF
  expected : EF
  bearish : EF
  expected_change_pct : EF
  volatility_index : EF
  disclaimer : String

/-- Result of `AIForecast.forecast`: either a structured error dictionary
or the forecast payload. -/
inductive ForecastResult where
  | err : String → ForecastResult
  | ok : ForecastData → ForecastResult

/-- `AIForecast.forecast`: guard on history length, then scenario
projection from the trailing 14 returns. -/
noncomputable def forecast (prices : List ℝ) (periods : ℕ) : ForecastResult :=
  if prices.length < 14 then ForecastResult.err "Insufficient data for forecast" else
  let returns : List EF :=
    List.zipWith (fun a b => EF.div (EF.fin (a - b)) (EF.fin b)) prices.tail prices
  let rets14 := returns.drop (returns.length - 14)
  let avg_return := EF.meanE rets14
  let std_return := EF.stdE rets14
  let current_price := EF.fin (prices.getLastD 0)
  let p := EF.fin (periods : ℝ)
  let bullish := EF.mul current_price
    (EF.add (EF.add (EF.fin 1) (EF.mul avg_return p)) (EF.mul std_return p))
  let bearish := EF.mul current_price
    (EF.sub (EF.add (EF.fin 1) (EF.mul avg_return p)) (EF.mul std_return p))
  let expected := EF.mul current_price (EF.add (EF.fin 1) (EF.mul avg_return p))
  ForecastResult.ok
    { current_price := roundTo current_price 5
      periods := periods
      bullish := roundTo bullish 5
      expected := roundTo expected 5
      bearish := roundTo bearish 5
      expected_change_pct := roundTo (EF.mul (EF.mul avg_return p) (EF.fin 100)) 2
      volatility_index := roundTo (EF.mul std_return (EF.fin 100)) 2
      disclaimer := "EDUCATIONAL FORECAST ONLY - Not guaranteed" }

/-- Rolling mean over reals, for the backtest moving averages. -/
noncomputable def rollingMeanR (l : List ℝ) (p : ℕ) (i : ℕ) : Option ℝ :=
  if 1 ≤ p ∧ p ≤ i + 1 ∧ i < l.length then
    some (((l.drop (i + 1 - p)).take p).sum / (p : ℝ))
  else none

/-- Payload of a successful `AIForecast.backtest_signal` call. -/
structure BacktestData where
  total_signals : ℕ
  buy_signals : ℕ
  sell_signals : ℕ
  hold_signals : ℕ
  strategy : String
  short_period : ℕ
  long_period : ℕ
  disclaimer : String

/-- Result of `AIForecast.backtest_signal`. -/
inductive BacktestResult where
  | err : String → BacktestResult
  | ok : BacktestData → BacktestResult

/-- `AIForecast.backtest_signal`: moving-average crossover walk from index
`long_period` to the end, threading a flat/long position flag. -/
noncomputable def backtest_signal (prices : List ℝ) (short_period long_period : ℕ) : BacktestResult :=
  if prices.length < long_period then BacktestResult.err "Insufficient data" else
  let short_ma := fun i => rollingMeanR prices short_period i
  let long_ma := fun i => rollingMeanR prices long_period i
  let step := fun (st : List String × ℕ) (i : ℕ) =>
    if oltR (long_ma i) (short_ma i) ∧ st.2 = 0 then (st.1 ++ ["BUY"], 1)
    else if oltR (short_ma i) (long_ma i) ∧ st.2 = 1 then (st.1 ++ ["SELL"], 0)
    else (st.1 ++ ["HOLD"], st.2)
  let signals := ((List.range' long_period (prices.length - long_period)).foldl step ([], 0)).1
  BacktestResult.ok
    { total_signals := signals.length
      buy_signals := signals.count "BUY"
      sell_signals := signals.count "SELL"
      hold_signals := signals.count "HOLD"
      strategy := "MA Crossover"
      short_period := short_period
      long_period := long_period
      disclaimer := "Past performance does not guarantee future results" }

/-- A detected pattern entry produced by `PatternRecognizer.find_patterns`. -/
structure PatternHit where
  pattern : String
  confidence : ℚ
  description : String

/-- `PatternRecognizer._detect_double_top`: length guard, then the
simplified detection always reports false. -/
def detectDoubleTop (prices : List ℝ) : Bool :=
  if prices.length < 20 then false else false

/-- `PatternRecognizer._detect_double_bottom`. -/
def detectDoubleBottom (prices : List ℝ) : Bool :=
  if prices.length < 20 then false else false

/-- `PatternRecognizer._detect_head_shoulders`. -/
def detectHeadShoulders (prices : List ℝ) : Bool :=
  if prices.length < 30 then false else false

/-- `PatternRecognizer._detect_triangle`. -/
def detectTriangle (prices : List ℝ) : Bool :=
  if prices.length < 20 then false else false

/-- `PatternRecognizer._get_description`. -/
def patternDescription (p : String) : String :=
  if p = "double_top" then "Bearish reversal pattern"
  else if p = "double_bottom" then "Bullish reversal pattern"
  else if p = "head_shoulders" then "Classic reversal pattern"
  else if p = "ascending_triangle" then "Bullish continuation pattern"
  else if p = "descending_triangle" then "Bearish continuation pattern"
  else if p = "symmetrical_triangle" then "Continuation pattern (breakout expected)"
  else "Price pattern"

/-- The `self.patterns` table of `PatternRecognizer`. -/
def patternTable : List (String × (List ℝ → Bool)) :=
  [("double_top", detectDoubleTop), ("double_bottom", detectDoubleBottom),
   ("head_shoulders", detectHeadShoulders), ("ascending_triangle", detectTriangle),
   ("descending_triangle", detectTriangle), ("symmetrical_triangle", detectTriangle)]

/-- `PatternRecognizer.find_patterns`; the `random.uniform(60, 85)` draw of
the match branch is modelled by the injected source `rand`, consumed one
value per positive detection. -/
def find_patterns (rand : ℕ → ℚ) (prices : List ℝ) : List PatternHit :=
  (patternTable.foldl
    (fun (st : List PatternHit × ℕ) pd =>
      if pd.2 prices then
        (st.1 ++ [{ pattern := pd.1, confidence := rand st.2,
                    description := patternDescription pd.1 }], st.2 + 1)
      else st)
    ([], 0)).1

/-- `patterns[0]['pattern'] if patterns else None` from
`AIAnalyzer.comprehensive_analysis`. -/
def patternDetectedOf (patterns : List PatternHit) : Option String :=
  match patterns with
  | [] => none
  | p :: _ => some p.pattern

/-- Trading opportunity signal (the timestamp and raw indicator dictionary
are presentation data and are not modelled). -/
structure TradingSignal where
  pair : String
  signal_type : String
  confidence : ℚ
  entry_price : ℚ
  stop_loss : ℚ
  take_profit : ℚ
  reason : String
  notified : Bool
deriving DecidableEq

/-- Insert keeping the list sorted by confidence descending; an element is
placed before the first strictly-smaller confidence, so equal confidences
keep their relative order (a stable descending sort, as Python's
`list.sort(key=..., reverse=True)`). -/
def insertByConfDesc (x : TradingSignal) : List TradingSignal → List TradingSignal
  | [] => [x]
  | y :: ys => if y.confidence ≤ x.confidence then x :: y :: ys
    else y :: insertByConfDesc x ys

/-- Stable sort by confidence descending. -/
def sortByConfDesc (l : List TradingSignal) : List TradingSignal :=
  l.foldr insertByConfDesc []

/-- `ForexAutomation.get_opportunities` on a given batch of signals (the
batch itself comes from the out-of-scope data collaborator via
`check_all_pairs`): filter by confidence and non-hold type, then sort by
confidence descending. -/
def get_opportunities (signals : List TradingSignal) (min_confidence : ℚ) : List TradingSignal :=
  sortByConfDesc (signals.filter
    (fun s => decide (min_confidence ≤ s.confidence) && !(s.signal_type == "hold")))

/-- Modelled from the spec side of claim C1, for refinement comparison:
the same scoring but with the PRICE compared against the Bollinger bands,
as the claim words it. -/
noncomputable def claimedSignalC1 (rsi_val macd macd_sig ema_12 sma_20 : Option ℚ)
    (price bb_upper bb_lower : Option ℝ) : Signal × ℤ :=
  let rsiTerm : ℤ := if oltQ rsi_val (some 30) then 30
    else if oltQ (some 70) rsi_val then -30 else 0
  let macdTerm : ℤ := if oltQ macd_sig macd then 20 else -20
  let emaTerm : ℤ := if oltQ sma_20 ema_12 then 20 else -20
  let bbTerm : ℤ := if oltR price bb_lower then 15
    else if oltR bb_upper price then -15 else 0
  let score := rsiTerm + macdTerm + emaTerm + bbTerm
  if 40 < score then (Signal.buy, min score 95)
  else if score < -40 then (Signal.sell, min |score| 95)
  else (Signal.hold, 50)

/-- The amended C1 scoring formula: identical to the claim except that the
Bollinger comparison uses the middle band, as the code does. -/
noncomputable def amendedSignalC1 (ind : IndicatorSnapshot) (rsi_val : Option ℚ) : Signal × ℤ :=
  let rsiTerm : ℤ := if oltQ rsi_val (some 30) then 30
    else if oltQ (some 70) rsi_val then -30 else 0
  let macdTerm : ℤ := if oltQ ind.macd_signal ind.macd then 20 else -20
  let emaTerm : ℤ := if oltQ ind.sma_20 ind.ema_12 then 20 else -20
  let bbTerm : ℤ := if oltR ind.bb_middle ind.bb_lower then 15
    else if oltR ind.bb_upper ind.bb_middle then -15 else 0
  let score := rsiTerm + macdTerm + emaTerm + bbTerm
  if 40 < score then (Signal.buy, min score 95)
  else if score < -40 then (Signal.sell, min |score| 95)
  else (Signal.hold, 50)

/-- The synthetic strictly increasing series 1, 2, ..., 200. -/
def rampList : List ℚ := List.map (fun k : ℕ => ((k : ℚ) + 1)) (List.range 200)

lemma ramp_length : rampList.length = 200 := by decide

lemma ramp_rsi_100 : rsiAt rampList 14 199 = some 100 := by decide

lemma ramp_sma50_lt_sma20 : oltQ (smaLast rampList 50) (smaLast rampList 20) = true := by decide

lemma ramp_sma20_lt_ema12 : oltQ (smaLast rampList 20) (emaLast 12 rampList) = true := by decide

lemma ramp_macdsig_lt_macd :
    oltQ (macdSignalLine rampList 12 26 9).getLast? (macdLine rampList 12 26).getLast? = true := by
  decide

lemma ramp_chain : List.Chain' (fun a b : ℚ => a < b) rampList := by
  unfold rampList
  rw [List.chain'_map]
  have h200 : (200 : ℕ) = Nat.succ 199 := rfl
  rw [h200, List.chain'_range_succ]
  intro m hm
  push_cast
  linarith

lemma oltQ_none_left (b : Option ℚ) : oltQ none b = false := by cases b <;> rfl

lemma oltQ_none_right (a : Option ℚ) : oltQ a none = false := by cases a <;> rfl

lemma oltR_some_some (a b : ℝ) : oltR (some a) (some b) = (a < b) := rfl

lemma oltR_none_left (b : Option ℝ) : oltR none b = False := by cases b <;> rfl

lemma oltR_none_right (a : Option ℝ) : oltR a none = False := by cases a <;> rfl

/-- C9: the trend vote of `_determine_trend` casts exactly one of its three
votes per comparison, so the bullish and bearish counts sum to 3, a tie is
impossible, and the result is always BULLISH or BEARISH, never NEUTRAL. -/
theorem determine_trend_never_neutral (ind : IndicatorSnapshot) :
    (determine_trend ind = Trend.bullish ∨ determine_trend ind = Trend.bearish) ∧
      determine_trend ind ≠ Trend.neutral := by
  have h : determine_trend ind = Trend.bullish ∨ determine_trend ind = Trend.bearish := by
    unfold determine_trend
    cases h1 : oltQ ind.sma_20 ind.ema_12 <;>
      cases h2 : oltQ ind.sma_50 ind.sma_20 <;>
        cases h3 : oltQ ind.macd_signal ind.macd <;> simp
  refine ⟨h, ?_⟩
  rcases h with h | h <;> rw [h] <;> intro hc <;> cases hc

/-- C10: every pattern detector reports false (also when its minimum-length
guard passes), so `find_patterns` returns the empty list for every price
array and every random source, and the derived `pattern_detected` of
`comprehensive_analysis` is always None. -/
theorem find_patterns_empty (rand : ℕ → ℚ) (prices : List ℝ) :
    find_patterns rand prices = [] ∧ patternDetectedOf (find_patterns rand prices) = none := by
  have h : find_patterns rand prices = [] := by
    unfold find_patterns patternTable
    simp [detectDoubleTop, detectDoubleBottom, detectHeadShoulders, detectTriangle]
  exact ⟨h, by rw [h]; rfl⟩

/-- C7: with fewer periods than required (fewer than 14 for `forecast`,
fewer than the long MA period for `backtest_signal`), each operation
returns a structured error result instead of raising. -/
theorem forecast_backtest_insufficient :
    (∀ (prices : List ℝ) (periods : ℕ), prices.length < 14 →
      forecast prices periods = ForecastResult.err "Insufficient data for forecast") ∧
    (∀ (prices : List ℝ) (sp lp : ℕ), prices.length < lp →
      backtest_signal prices sp lp = BacktestResult.err "Insufficient data") := by
  constructor
  · intro prices periods h
    unfold forecast
    rw [if_pos h]
  · intro prices sp lp h
    unfold backtest_signal
    rw [if_pos h]

/-- C7 witness: a three-point series is below both thresholds. -/
theorem forecast_backtest_insufficient_witness :
    forecast [(1 : ℝ), 2, 3] 7 = ForecastResult.err "Insufficient data for forecast" ∧
      backtest_signal [(1 : ℝ), 2, 3] 5 20 = BacktestResult.err "Insufficient data" :=
  ⟨forecast_backtest_insufficient.1 [(1 : ℝ), 2, 3] 7 (by simp),
   forecast_backtest_insufficient.2 [(1 : ℝ), 2, 3] 5 20 (by simp)⟩

lemma emaRec_length (a : ℚ) (prev : ℚ) (l : List ℚ) :
    (emaRec a prev l).length = l.length := by
  induction l generalizing prev with
  | nil => rfl
  | cons x xs ih => simp [emaRec, ih]

lemma emaList_length (p : ℕ) (l : List ℚ) : (emaList p l).length = l.length := by
  cases l <;> simp [emaList, emaRec_length]

lemma macdLine_length (l : List ℚ) (f s : ℕ) : (macdLine l f s).length = l.length := by
  simp [macdLine, emaList_length]

lemma macdSignalLine_length (l : List ℚ) (f s sp : ℕ) :
    (macdSignalLine l f s sp).length = l.length := by
  simp [macdSignalLine, emaList_length, macdLine_length]

lemma zipWith_sub_getD (A B : List ℚ) (i : ℕ) (hA : i < A.length) (hB : i < B.length) :
    (List.zipWith (fun a b => a - b) A B).getD i 0 = A.getD i 0 - B.getD i 0 := by
  have hz : i < (List.zipWith (fun a b : ℚ => a - b) A B).length := by
    simp [List.length_zipWith]
    omega
  rw [List.getD_eq_getElem _ _ hz, List.getD_eq_getElem _ _ hA, List.getD_eq_getElem _ _ hB]
  exact List.getElem_zipWith

/-- C5: the MACD histogram equals the MACD line minus the signal line at
every index of the series (both lines are defined everywhere, since the
recursive EMA is seeded from the first value). -/
theorem macd_histogram_exact (l : List ℚ) (f s sp i : ℕ) (h : i < l.length) :
    (macdHistogram l f s sp).getD i 0 =
      (macdLine l f s).getD i 0 - (macdSignalLine l f s sp).getD i 0 := by
  unfold macdHistogram
  exact zipWith_sub_getD _ _ i (by rw [macdLine_length]; exact h)
    (by rw [macdSignalLine_length]; exact h)

/-- C5 witness: the identity instantiated on a concrete three-point series. -/
theorem macd_histogram_exact_witness :
    (macdHistogram [(1 : ℚ), 2, 3] 12 26 9).getD 1 0 =
      (macdLine [(1 : ℚ), 2, 3] 12 26).getD 1 0 -
        (macdSignalLine [(1 : ℚ), 2, 3] 12 26 9).getD 1 0 :=
  macd_histogram_exact [(1 : ℚ), 2, 3] 12 26 9 1 (by simp)

/-- C6: wherever the Bollinger bands are defined and the standard-deviation
multiplier is non-negative, upper band at least middle band at least lower
band. -/
theorem bollinger_band_order (l : List ℚ) (p : ℕ) (k : ℚ) (i : ℕ)
    (hk : 0 ≤ k) (hp : 2 ≤ p) (hpi : p ≤ i + 1) (hil : i < l.length) :
    ∃ u m lo, bollingerUpper l p k i = some u ∧ bollingerMiddle l p i = some m ∧
      bollingerLower l p k i = some lo ∧ lo ≤ m ∧ m ≤ u := by
  have h1 : 1 ≤ p := le_trans (by norm_num) hp
  have hm : rollingMean l p i = some (((l.drop (i + 1 - p)).take p).sum / (p : ℚ)) := by
    unfold rollingMean
    rw [if_pos ⟨h1, hpi, hil⟩]
  have hv : rollingVar l p i =
      some ((((l.drop (i + 1 - p)).take p).map
        (fun x => (x - ((l.drop (i + 1 - p)).take p).sum / (p : ℚ)) ^ 2)).sum / ((p : ℚ) - 1)) := by
    unfold rollingVar
    rw [if_pos ⟨hp, hpi, hil⟩]
  set mq : ℚ := ((l.drop (i + 1 - p)).take p).sum / (p : ℚ) with hmq
  set vq : ℚ := (((l.drop (i + 1 - p)).take p).map
    (fun x => (x - ((l.drop (i + 1 - p)).take p).sum / (p : ℚ)) ^ 2)).sum / ((p : ℚ) - 1) with hvq
  have hs : rollingStd l p i = some (Real.sqrt (vq : ℝ)) := by
    unfold rollingStd
    rw [hv]
    rfl
  have hprod : 0 ≤ Real.sqrt (vq : ℝ) * (k : ℝ) :=
    mul_nonneg (Real.sqrt_nonneg _) (by exact_mod_cast hk)
  refine ⟨(mq : ℝ) + Real.sqrt (vq : ℝ) * (k : ℝ), (mq : ℝ),
    (mq : ℝ) - Real.sqrt (vq : ℝ) * (k : ℝ), ?_, ?_, ?_, by linarith, by linarith⟩
  · unfold bollingerUpper
    rw [hm, hs]
  · unfold bollingerMiddle
    rw [hm]
    rfl
  · unfold bollingerLower
    rw [hm, hs]

/-- C6 witness: the ordering instantiated on a flat two-point window. -/
theorem bollinger_band_order_witness :
    ∃ u m lo, bollingerUpper [(1 : ℚ), 1] 2 2 1 = some u ∧
      bollingerMiddle [(1 : ℚ), 1] 2 1 = some m ∧
      bollingerLower [(1 : ℚ), 1] 2 2 1 = some lo ∧ lo ≤ m ∧ m ≤ u :=
  bollinger_band_order [(1 : ℚ), 1] 2 2 1 (by norm_num) (by norm_num) (by norm_num) (by simp)

/-- A snapshot whose price proxy (`ema_12` value 2) sits below the lower
Bollinger band (10), while RSI is neutral and the MACD and moving-average
comparisons are bullish. -/
def cexSnapshot : IndicatorSnapshot where
  sma_20 := some 1
  sma_50 := some 1
  sma_200 := none
  ema_12 := some 2
  ema_26 := some 2
  rsi := some 50
  macd := some 1
  macd_signal := some 0
  macd_histogram := some 1
  bb_upper := some 30
  bb_middle := some 20
  bb_lower := some 10

/-- C1 counterexample: with the price (2) below the lower band (10), the
claimed scoring gives +15 for the Bollinger term, total 55, hence BUY with
confidence 55; the code compares the middle band (20) to the bands instead,
the term is 0, the total is 40, and the result is HOLD with confidence 50. -/
theorem generate_signal_price_claim_cex :
    claimedSignalC1 (some 50) (some 1) (some 0) (some 2) (some 1) (some 2) (some 30) (some 10)
        = (Signal.buy, 55) ∧
      generate_signal cexSnapshot (some 50) = (Signal.hold, 50) ∧
      (Signal.hold, (50 : ℤ)) ≠ (Signal.buy, (55 : ℤ)) := by
  refine ⟨?_, ?_, by simp⟩
  · unfold claimedSignalC1
    norm_num [oltQ, oltR]
  · unfold generate_signal cexSnapshot
    norm_num [oltQ, oltR]

/-- C1 amended: the `_generate_signal` score starts at 0 and adds the RSI,
MACD and EMA-vs-SMA terms as claimed, but the Bollinger term compares the
MIDDLE band (the reassigned `price` variable) against the lower and upper
bands; the thresholds and confidences are as claimed. -/
theorem generate_signal_amended (ind : IndicatorSnapshot) (rsi_val : Option ℚ) :
    generate_signal ind rsi_val = amendedSignalC1 ind rsi_val := by
  unfold generate_signal amendedSignalC1
  by_cases hb1 : oltR ind.bb_middle ind.bb_lower <;>
    by_cases hb2 : oltR ind.bb_upper ind.bb_middle <;>
      cases h1 : oltQ rsi_val (some 30) <;>
        cases h2 : oltQ (some 70) rsi_val <;>
          cases h3 : oltQ ind.macd_signal ind.macd <;>
            cases h4 : oltQ ind.sma_20 ind.ema_12 <;>
              simp [hb1, hb2]

lemma insertByConfDesc_perm (x : TradingSignal) (l : List TradingSignal) :
    (insertByConfDesc x l).Perm (x :: l) := by
  induction l with
  | nil => exact List.Perm.refl _
  | cons y ys ih =>
    unfold insertByConfDesc
    split
    · exact List.Perm.refl _
    · exact (ih.cons y).trans (List.Perm.swap x y ys)

lemma sortByConfDesc_perm (l : List TradingSignal) : (sortByConfDesc l).Perm l := by
  induction l with
  | nil => exact List.Perm.refl _
  | cons x xs ih => exact (insertByConfDesc_perm x (sortByConfDesc xs)).trans (ih.cons x)

lemma insertByConfDesc_sorted (x : TradingSignal) (l : List TradingSignal)
    (hl : l.Pairwise (fun a b => b.confidence ≤ a.confidence)) :
    (insertByConfDesc x l).Pairwise (fun a b => b.confidence ≤ a.confidence) := by
  induction l with
  | nil => simp [insertByConfDesc]
  | cons y ys ih =>
    rcases List.pairwise_cons.mp hl with ⟨hy, hys⟩
    unfold insertByConfDesc
    split
    · rename_i h
      refine List.pairwise_cons.mpr ⟨?_, hl⟩
      intro z hz
      rcases List.mem_cons.mp hz with rfl | hz
      · exact h
      · exact le_trans (hy z hz) h
    · rename_i h
      push_neg at h
      refine List.pairwise_cons.mpr ⟨?_, ih hys⟩
      intro z hz
      have hz2 : z = x ∨ z ∈ ys := by
        simpa using (insertByConfDesc_perm x ys).mem_iff.mp hz
      rcases hz2 with rfl | hz2
      · exact le_of_lt h
      · exact hy z hz2

lemma sortByConfDesc_sorted (l : List TradingSignal) :
    (sortByConfDesc l).Pairwise (fun a b => b.confidence ≤ a.confidence) := by
  induction l with
  | nil => simp [sortByConfDesc]
  | cons x xs ih => exact insertByConfDesc_sorted x _ ih

/-- A buy signal with confidence 55. -/
def sig55 : TradingSignal :=
  { pair := "EUR/USD", signal_type := "buy", confidence := 55, entry_price := 1,
    stop_loss := 1, take_profit := 1, reason := "", notified := false }

/-- A sell signal with confidence 91. -/
def sig91 : TradingSignal :=
  { pair := "GBP/USD", signal_type := "sell", confidence := 91, entry_price := 1,
    stop_loss := 1, take_profit := 1, reason := "", notified := false }

/-- A buy signal with confidence 78. -/
def sig78 : TradingSignal :=
  { pair := "USD/JPY", signal_type := "buy", confidence := 78, entry_price := 1,
    stop_loss := 1, take_profit := 1, reason := "", notified := false }

/-- A hold signal with confidence 91. -/
def sigHold91 : TradingSignal :=
  { pair := "EUR/USD", signal_type := "hold", confidence := 91, entry_price := 1,
    stop_loss := 1, take_profit := 1, reason := "", notified := false }

/-- C4 counterexample: a hold-type signal whose confidence (91) meets the
threshold (70) is nonetheless excluded by `get_opportunities`, so the
result is not "exactly the signals whose confidence meets the threshold". -/
theorem get_opportunities_hold_cex :
    get_opportunities [sigHold91] 70 = [] ∧ (70 : ℚ) ≤ sigHold91.confidence ∧
      sigHold91 ∈ [sigHold91] := by
  refine ⟨by decide, by decide, by simp⟩

/-- C4 amended: `get_opportunities` returns exactly the signals whose
confidence meets the threshold AND whose type is not hold, sorted by
confidence descending; on confidences [55, 91, 78] (non-hold) with
threshold 70 the returned confidences are [91, 78]. -/
theorem get_opportunities_spec :
    (∀ (signals : List TradingSignal) (mc : ℚ) (s : TradingSignal),
        s ∈ get_opportunities signals mc ↔
          s ∈ signals ∧ mc ≤ s.confidence ∧ s.signal_type ≠ "hold") ∧
    (∀ (signals : List TradingSignal) (mc : ℚ),
        (get_opportunities signals mc).Perm (signals.filter
          (fun s => decide (mc ≤ s.confidence) && !(s.signal_type == "hold")))) ∧
    (∀ (signals : List TradingSignal) (mc : ℚ),
        (get_opportunities signals mc).Pairwise (fun a b => b.confidence ≤ a.confidence)) ∧
    (get_opportunities [sig55, sig91, sig78] 70).map TradingSignal.confidence = [91, 78] := by
  refine ⟨?_, ?_, ?_, by decide⟩
  · intro signals mc s
    unfold get_opportunities
    rw [(sortByConfDesc_perm _).mem_iff, List.mem_filter]
    simp [and_assoc]
  · intro signals mc
    unfold get_opportunities
    exact sortByConfDesc_perm _
  · intro signals mc
    unfold get_opportunities
    exact sortByConfDesc_sorted _

lemma rollingMean_nonneg (l : List ℚ) (p i : ℕ) (q : ℚ)
    (hl : ∀ x ∈ l, 0 ≤ x) (h : rollingMean l p i = some q) : 0 ≤ q := by
  unfold rollingMean at h
  split at h
  · rcases Option.some_injective _ h.symm ▸ h with h2
    have hq : q = ((l.drop (i + 1 - p)).take p).sum / (p : ℚ) := by
      exact (Option.some.injEq _ _).mp h.symm
    rw [hq]
    apply div_nonneg
    · apply List.sum_nonneg
      intro x hx
      exact hl x (List.mem_of_mem_drop (List.mem_of_mem_take hx))
    · positivity
  · exact absurd h (by simp)

lemma gainsList_nonneg (l : List ℚ) : ∀ x ∈ gainsList l, 0 ≤ x := by
  intro x hx
  cases l with
  | nil => simp [gainsList] at hx
  | cons a as =>
    unfold gainsList at hx
    rcases List.mem_cons.mp hx with rfl | hx
    · exact le_refl 0
    · rcases List.mem_map.mp hx with ⟨d, _, rfl⟩
      show 0 ≤ if 0 < d then d else 0
      split
      · rename_i hd
        exact le_of_lt hd
      · exact le_refl 0

lemma lossesList_nonneg (l : List ℚ) : ∀ x ∈ lossesList l, 0 ≤ x := by
  intro x hx
  cases l with
  | nil => simp [lossesList] at hx
  | cons a as =>
    unfold lossesList at hx
    rcases List.mem_cons.mp hx with rfl | hx
    · exact le_refl 0
    · rcases List.mem_map.mp hx with ⟨d, _, rfl⟩
      show 0 ≤ if d < 0 then -d else 0
      split
      · rename_i hd
        linarith
      · exact le_refl 0

/-- C3 amended: every defined RSI value lies in [0, 100]; a zero average
loss with positive average gain saturates RSI to exactly 100; a zero
average gain with positive average loss gives RSI 0.  For a constant
series, however, both averages are 0 and the source's `0/0` produces NaN,
not 100 (per the spec's own design note this saturation is a mandated
change versus the original code). -/
theorem rsi_bounded_saturating :
    (∀ (l : List ℚ) (p i : ℕ) (q : ℚ), rsiAt l p i = some q → 0 ≤ q ∧ q ≤ 100) ∧
    (∀ (l : List ℚ) (p i : ℕ) (g : ℚ), rollingMean (gainsList l) p i = some g → g ≠ 0 →
      rollingMean (lossesList l) p i = some 0 → rsiAt l p i = some 100) ∧
    (∀ (l : List ℚ) (p i : ℕ) (lo : ℚ), rollingMean (gainsList l) p i = some 0 →
      rollingMean (lossesList l) p i = some lo → lo ≠ 0 → rsiAt l p i = some 0) := by
  refine ⟨?_, ?_, ?_⟩
  · intro l p i q h
    unfold rsiAt at h
    cases hg : rollingMean (gainsList l) p i with
    | none => rw [hg] at h; cases h
    | some g =>
      cases hlo : rollingMean (lossesList l) p i with
      | none => rw [hg, hlo] at h; cases h
      | some lo =>
        rw [hg, hlo] at h
        dsimp only at h
        have hg0 : 0 ≤ g := rollingMean_nonneg _ p i g (gainsList_nonneg l) hg
        have hlo0 : 0 ≤ lo := rollingMean_nonneg _ p i lo (lossesList_nonneg l) hlo
        by_cases hz : lo = 0
        · rw [if_pos hz] at h
          by_cases hgz : g = 0
          · rw [if_pos hgz] at h; cases h
          · rw [if_neg hgz] at h
            have : q = 100 := by exact (Option.some.injEq _ _).mp h.symm
            rw [this]; norm_num
        · rw [if_neg hz] at h
          have hlt : 0 < lo := lt_of_le_of_ne hlo0 (Ne.symm hz)
          have hrs : 0 ≤ g / lo := div_nonneg hg0 (le_of_lt hlt)
          have hq : q = 100 - 100 / (1 + g / lo) := by
            exact (Option.some.injEq _ _).mp h.symm
          have h1 : (0 : ℚ) < 1 + g / lo := by linarith
          have h2 : 100 / (1 + g / lo) ≤ 100 := by
            apply div_le_self (by norm_num)
            linarith
          have h3 : 0 < 100 / (1 + g / lo) := by positivity
          constructor <;> [skip; skip] <;> rw [hq] <;> linarith
  · intro l p i g hg hgne hlo
    unfold rsiAt
    rw [hg, hlo]
    dsimp only
    rw [if_pos rfl, if_neg hgne]
  · intro l p i lo hg hlo hz
    unfold rsiAt
    rw [hg, hlo]
    dsimp only
    rw [if_neg hz]
    norm_num

/-- C3 witness: a strictly increasing 15-point series has zero average
loss and positive average gain at the last index, so RSI is 100, which the
bound and saturation clauses cover. -/
theorem rsi_bounded_saturating_witness :
    ((0 : ℚ) ≤ 100 ∧ (100 : ℚ) ≤ 100) ∧
      rsiAt [(1 : ℚ), 2, 3, 4, 5, 6, 7, 8, 9, 10, 11, 12, 13, 14, 15] 14 14 = some 100 :=
  ⟨rsi_bounded_saturating.1 [(1 : ℚ), 2, 3, 4, 5, 6, 7, 8, 9, 10, 11, 12, 13, 14, 15] 14 14 100
      (by decide),
   rsi_bounded_saturating.2.1 [(1 : ℚ), 2, 3, 4, 5, 6, 7, 8, 9, 10, 11, 12, 13, 14, 15] 14 14 1
      (by decide) (by norm_num) (by decide)⟩

/-- C3 counterexample: on a constant series both trailing averages are 0,
the source computes `0/0` (NaN), and RSI is NaN rather than the claimed
saturating 100. -/
theorem rsi_flat_nan :
    rsiAt (List.replicate 20 (1 : ℚ)) 14 19 = none ∧
      rsiAt (List.replicate 20 (1 : ℚ)) 14 19 ≠ some 100 := by
  have h : rsiAt (List.replicate 20 (1 : ℚ)) 14 19 = none := by decide
  exact ⟨h, by rw [h]; intro hc; cases hc⟩

lemma deltas_length (l : List ℚ) : (deltas l).length = l.length - 1 := by
  unfold deltas
  rw [List.length_zipWith, List.length_tail]
  exact min_eq_left (Nat.sub_le _ _)

lemma deltas_pos (l : List ℚ) (hc : List.Chain' (fun a b : ℚ => a < b) l) :
    ∀ d ∈ deltas l, 0 < d := by
  intro d hd
  rw [List.mem_iff_getElem] at hd
  obtain ⟨j, hj, hdj⟩ := hd
  have hjlen : j < l.length - 1 := by
    rw [deltas_length] at hj
    exact hj
  have hj1 : j < l.tail.length := by
    rw [List.length_tail]
    omega
  have hj2 : j < l.length := by omega
  have hj3 : j + 1 < l.length := by omega
  have hval : (deltas l)[j] = l.tail[j] - l[j] := by
    unfold deltas
    exact List.getElem_zipWith ..
  have htail : l.tail[j] = l[j + 1] := List.getElem_tail ..
  have hlt : l[j] < l[j + 1] := by
    have hcg := List.chain'_iff_get.mp hc j hjlen
    simpa [List.get_eq_getElem] using hcg
  have : (deltas l)[j] = l[j + 1] - l[j] := by rw [hval, htail]
  rw [← hdj, this]
  linarith

lemma lossesList_eq_replicate (l : List ℚ) (hc : List.Chain' (fun a b : ℚ => a < b) l) :
    lossesList l = List.replicate l.length 0 := by
  cases l with
  | nil => rfl
  | cons a as =>
    unfold lossesList
    have hmap : (deltas (a :: as)).map (fun d => if d < 0 then -d else 0) =
        List.replicate as.length (0 : ℚ) := by
      rw [List.eq_replicate_iff]
      constructor
      · rw [List.length_map, deltas_length]
        simp
      · intro b hb
        rcases List.mem_map.mp hb with ⟨d, hd, rfl⟩
        have hdpos := deltas_pos _ hc d hd
        show (if d < 0 then -d else 0) = 0
        rw [if_neg (by linarith)]
    rw [hmap]
    show (0 : ℚ) :: List.replicate as.length 0 = List.replicate (a :: as).length 0
    simp [List.replicate_succ]

lemma rsi_strict_increasing_100 (l : List ℚ) (hc : List.Chain' (fun a b : ℚ => a < b) l)
    (hlen : 15 ≤ l.length) : rsiAt l 14 (l.length - 1) = some 100 := by
  obtain ⟨a, as, rfl⟩ : ∃ a as, l = a :: as := by
    cases l with
    | nil => simp at hlen
    | cons a as => exact ⟨a, as, rfl⟩
  set n := (a :: as).length with hn
  have hn' : n = as.length + 1 := by rw [hn, List.length_cons]
  have h15 : 15 ≤ n := hlen
  have hrep : lossesList (a :: as) = List.replicate n 0 := lossesList_eq_replicate _ hc
  have hloss : rollingMean (lossesList (a :: as)) 14 (n - 1) = some 0 := by
    rw [hrep]
    unfold rollingMean
    rw [if_pos ⟨by norm_num, by omega, by rw [List.length_replicate]; omega⟩]
    simp [List.drop_replicate, List.take_replicate, List.sum_replicate]
  have hglen : (gainsList (a :: as)).length = n := by
    unfold gainsList
    rw [List.length_cons, List.length_map, deltas_length]
    omega
  set w : List ℚ := ((gainsList (a :: as)).drop (n - 1 + 1 - 14)).take 14 with hw
  have hcond : 1 ≤ 14 ∧ 14 ≤ (n - 1) + 1 ∧ (n - 1) < (gainsList (a :: as)).length := by
    refine ⟨by norm_num, by omega, by rw [hglen]; omega⟩
  have hgm : rollingMean (gainsList (a :: as)) 14 (n - 1) = some (w.sum / 14) := by
    unfold rollingMean
    rw [if_pos hcond]
    norm_num [hw]
  have hwpos : ∀ x ∈ w, 0 < x := by
    intro x hx
    have hx1 : x ∈ (gainsList (a :: as)).drop (n - 1 + 1 - 14) := List.mem_of_mem_take hx
    have hidx : n - 1 + 1 - 14 = (n - 15) + 1 := by omega
    rw [hidx] at hx1
    have hdropeq : (gainsList (a :: as)).drop ((n - 15) + 1) =
        ((deltas (a :: as)).map (fun d => if 0 < d then d else 0)).drop (n - 15) := by
      unfold gainsList
      exact List.drop_succ_cons ..
    rw [hdropeq] at hx1
    have hx2 : x ∈ (deltas (a :: as)).map (fun d => if 0 < d then d else 0) :=
      List.mem_of_mem_drop hx1
    rcases List.mem_map.mp hx2 with ⟨d, hd, rfl⟩
    have hdpos := deltas_pos _ hc d hd
    show 0 < if 0 < d then d else 0
    rw [if_pos hdpos]
    exact hdpos
  have hwlen : w.length = 14 := by
    rw [hw, List.length_take, List.length_drop, hglen]
    omega
  have hwne : w ≠ [] := by
    intro hcon
    rw [hcon] at hwlen
    simp at hwlen
  have hsum : 0 < w.sum := List.sum_pos w hwpos hwne
  have hgne : w.sum / 14 ≠ 0 := ne_of_gt (by positivity)
  unfold rsiAt
  rw [hgm, hloss]
  dsimp only
  rw [if_pos rfl, if_neg hgne]

lemma bb_middle_lower_not (l : List ℚ) (p : ℕ) (k : ℚ) (i : ℕ) (hk : 0 ≤ k) :
    ¬ oltR (bollingerMiddle l p i) (bollingerLower l p k i) := by
  cases hm : rollingMean l p i with
  | none =>
    simp [bollingerMiddle, hm, oltR_none_left]
  | some m =>
    cases hv : rollingVar l p i with
    | none =>
      have hlow : bollingerLower l p k i = none := by
        unfold bollingerLower rollingStd
        rw [hm, hv]
        rfl
      rw [hlow]
      simp [oltR_none_right]
    | some v =>
      have hmid : bollingerMiddle l p i = some ((m : ℝ)) := by
        unfold bollingerMiddle
        rw [hm]
        rfl
      have hlow : bollingerLower l p k i =
          some ((m : ℝ) - Real.sqrt ((v : ℚ) : ℝ) * (k : ℝ)) := by
        unfold bollingerLower rollingStd
        rw [hm, hv]
        rfl
      rw [hmid, hlow, oltR_some_some]
      have hs : 0 ≤ Real.sqrt ((v : ℚ) : ℝ) * (k : ℝ) :=
        mul_nonneg (Real.sqrt_nonneg _) (by exact_mod_cast hk)
      linarith

lemma bb_upper_middle_not (l : List ℚ) (p : ℕ) (k : ℚ) (i : ℕ) (hk : 0 ≤ k) :
    ¬ oltR (bollingerUpper l p k i) (bollingerMiddle l p i) := by
  cases hm : rollingMean l p i with
  | none =>
    simp [bollingerMiddle, hm, oltR_none_right]
  | some m =>
    cases hv : rollingVar l p i with
    | none =>
      have hup : bollingerUpper l p k i = none := by
        unfold bollingerUpper rollingStd
        rw [hm, hv]
        rfl
      rw [hup]
      simp [oltR_none_left]
    | some v =>
      have hmid : bollingerMiddle l p i = some ((m : ℝ)) := by
        unfold bollingerMiddle
        rw [hm]
        rfl
      have hup : bollingerUpper l p k i =
          some ((m : ℝ) + Real.sqrt ((v : ℚ) : ℝ) * (k : ℝ)) := by
        unfold bollingerUpper rollingStd
        rw [hm, hv]
        rfl
      rw [hmid, hup, oltR_some_some]
      have hs : 0 ≤ Real.sqrt ((v : ℚ) : ℝ) * (k : ℝ) :=
        mul_nonneg (Real.sqrt_nonneg _) (by exact_mod_cast hk)
      linarith

lemma generate_signal_bb_skip (ind : IndicatorSnapshot) (rv : Option ℚ)
    (h1 : ¬ oltR ind.bb_middle ind.bb_lower) (h2 : ¬ oltR ind.bb_upper ind.bb_middle) :
    generate_signal ind rv =
      (let score1 : ℤ := if oltQ rv (some 30) then 30
        else if oltQ (some 70) rv then -30 else 0
       let score2 : ℤ := if oltQ ind.macd_signal ind.macd then score1 + 20 else score1 - 20
       let score3 : ℤ := if oltQ ind.sma_20 ind.ema_12 then score2 + 20 else score2 - 20
       if 40 < score3 then (Signal.buy, min score3 95)
       else if score3 < -40 then (Signal.sell, min |score3| 95)
       else (Signal.hold, 50)) := by
  unfold generate_signal
  simp only [if_neg h1, if_neg h2]

lemma generate_signal_conf_le (ind : IndicatorSnapshot) (rv : Option ℚ) :
    (generate_signal ind rv).2 ≤ 95 := by
  unfold generate_signal
  split_ifs <;> first
  | exact min_le_right _ _
  | norm_num

lemma generate_signal_rsi100_ne_buy (ind : IndicatorSnapshot)
    (h1 : ¬ oltR ind.bb_middle ind.bb_lower) (h2 : ¬ oltR ind.bb_upper ind.bb_middle) :
    (generate_signal ind (some 100)).1 ≠ Signal.buy := by
  rw [generate_signal_bb_skip ind (some 100) h1 h2]
  have e1 : oltQ (some (100 : ℚ)) (some 30) = false := by decide
  have e2 : oltQ (some (70 : ℚ)) (some 100) = true := by decide
  cases h3 : oltQ ind.macd_signal ind.macd <;>
    cases h4 : oltQ ind.sma_20 ind.ema_12 <;>
      simp [e1, e2, h3, h4]

lemma ramp_len_sub : rampList.length - 1 = 199 := by
  rw [ramp_length]

lemma analyzeSnapshot_ramp_rsi : (analyzeSnapshot rampList).rsi = some 100 := by
  show rsiAt rampList 14 (rampList.length - 1) = some 100
  rw [ramp_len_sub]
  exact ramp_rsi_100

lemma ramp_trend_bullish : determine_trend (analyzeSnapshot rampList) = Trend.bullish := by
  have h1 : oltQ (analyzeSnapshot rampList).sma_20 (analyzeSnapshot rampList).ema_12 = true :=
    ramp_sma20_lt_ema12
  have h2 : oltQ (analyzeSnapshot rampList).sma_50 (analyzeSnapshot rampList).sma_20 = true :=
    ramp_sma50_lt_sma20
  have h3 : oltQ (analyzeSnapshot rampList).macd_signal (analyzeSnapshot rampList).macd = true :=
    ramp_macdsig_lt_macd
  unfold determine_trend
  simp [h1, h2, h3]

lemma ramp_signal_hold :
    generate_signal (analyzeSnapshot rampList) (analyzeSnapshot rampList).rsi =
      (Signal.hold, 50) := by
  rw [analyzeSnapshot_ramp_rsi]
  have hb1 : ¬ oltR (analyzeSnapshot rampList).bb_middle (analyzeSnapshot rampList).bb_lower :=
    bb_middle_lower_not rampList 20 2 (rampList.length - 1) (by norm_num)
  have hb2 : ¬ oltR (analyzeSnapshot rampList).bb_upper (analyzeSnapshot rampList).bb_middle :=
    bb_upper_middle_not rampList 20 2 (rampList.length - 1) (by norm_num)
  rw [generate_signal_bb_skip _ _ hb1 hb2]
  have e1 : oltQ (some (100 : ℚ)) (some 30) = false := by decide
  have e2 : oltQ (some (70 : ℚ)) (some 100) = true := by decide
  have h3 : oltQ (analyzeSnapshot rampList).macd_signal (analyzeSnapshot rampList).macd = true :=
    ramp_macdsig_lt_macd
  have h4 : oltQ (analyzeSnapshot rampList).sma_20 (analyzeSnapshot rampList).ema_12 = true :=
    ramp_sma20_lt_ema12
  simp [e1, e2, h3, h4]

/-- C2 amended: on every strictly increasing series of length at least 200
the RSI saturates to 100 and contributes -30 while the Bollinger term is
always 0, so the score is at most 10 and the signal is never BUY (the
confidence stays capped at 95); on the linear ramp 1..200 the trend does
resolve to bullish, but the signal is HOLD with confidence 50. -/
theorem analyze_strict_increasing_signal :
    (∀ data : List ℚ, List.Chain' (fun a b : ℚ => a < b) data → 200 ≤ data.length →
      (analyze data).signal ≠ Signal.buy ∧ (analyze data).confidence ≤ 95) ∧
    (analyze rampList).trend = Trend.bullish ∧
    (analyze rampList).signal = Signal.hold ∧
    (analyze rampList).confidence = 50 := by
  have hana : ∀ data : List ℚ, (analyze data).signal =
      (generate_signal (analyzeSnapshot data) (analyzeSnapshot data).rsi).1 := fun _ => rfl
  have hanaconf : ∀ data : List ℚ, (analyze data).confidence =
      (generate_signal (analyzeSnapshot data) (analyzeSnapshot data).rsi).2 := fun _ => rfl
  refine ⟨?_, ?_, ?_, ?_⟩
  · intro data hc hlen
    constructor
    · rw [hana]
      have hrsi : (analyzeSnapshot data).rsi = some 100 := by
        show rsiAt data 14 (data.length - 1) = some 100
        exact rsi_strict_increasing_100 data hc (by omega)
      rw [hrsi]
      exact generate_signal_rsi100_ne_buy _
        (bb_middle_lower_not data 20 2 (data.length - 1) (by norm_num))
        (bb_upper_middle_not data 20 2 (data.length - 1) (by norm_num))
    · rw [hanaconf]
      exact generate_signal_conf_le _ _
  · show determine_trend (analyzeSnapshot rampList) = Trend.bullish
    exact ramp_trend_bullish
  · rw [hana, ramp_signal_hold]
  · rw [hanaconf, ramp_signal_hold]

/-- C2 witness: the claim's hypotheses hold of the concrete ramp 1..200 and
the amended conclusion follows for it. -/
theorem analyze_strict_increasing_signal_witness :
    List.Chain' (fun a b : ℚ => a < b) rampList ∧ 200 ≤ rampList.length ∧
      ((analyze rampList).signal ≠ Signal.buy ∧ (analyze rampList).confidence ≤ 95) :=
  ⟨ramp_chain, by rw [ramp_length],
    analyze_strict_increasing_signal.1 rampList ramp_chain (by rw [ramp_length])⟩

/-- C2 counterexample: the ramp 1..200 is strictly increasing with length
200, yet `analyze` emits HOLD, not BUY (RSI saturates at 100 and subtracts
30, leaving the score at 10, below the buy threshold). -/
theorem analyze_ramp_not_buy_cex :
    List.Chain' (fun a b : ℚ => a < b) rampList ∧ rampList.length = 200 ∧
      (analyze rampList).signal = Signal.hold ∧ (analyze rampList).signal ≠ Signal.buy := by
  have hsig : (analyze rampList).signal = Signal.hold := by
    show (generate_signal (analyzeSnapshot rampList) (analyzeSnapshot rampList).rsi).1 =
      Signal.hold
    rw [ramp_signal_hold]
  exact ⟨ramp_chain, ramp_length, hsig, by rw [hsig]; intro hcon; cases hcon⟩

namespace EF

lemma add_nan_left (x : EF) : add nan x = nan := by cases x <;> rfl

lemma add_nan_right (x : EF) : add x nan = nan := by cases x <;> rfl

lemma add_fin_fin (a b : ℝ) : add (fin a) (fin b) = fin (a + b) := rfl

lemma sub_fin_fin (a b : ℝ) : sub (fin a) (fin b) = fin (a - b) := by
  show fin (a + -b) = fin (a - b)
  rw [← sub_eq_add_neg]

lemma sub_nan_left (x : EF) : sub nan x = nan := by cases x <;> rfl

lemma sub_nan_right (x : EF) : sub x nan = nan := by cases x <;> rfl

lemma mul_nan_left (x : EF) : mul nan x = nan := by cases x <;> rfl

lemma mul_nan_right (x : EF) : mul x nan = nan := by cases x <;> rfl

lemma mul_fin_fin (a b : ℝ) : mul (fin a) (fin b) = fin (a * b) := rfl

lemma div_nan_left (x : EF) : div nan x = nan := by cases x <;> rfl

lemma div_nan_right (x : EF) : div x nan = nan := by cases x <;> rfl

lemma div_fin_fin_ne (a b : ℝ) (hb : b ≠ 0) : div (fin a) (fin b) = fin (a / b) := by
  show (if b = 0 then (if a = 0 then nan else if 0 < a then pinf else ninf) else fin (a / b)) =
    fin (a / b)
  rw [if_neg hb]

lemma div_fin_zero_zero : div (fin 0) (fin 0) = nan := by
  show (if (0 : ℝ) = 0 then (if (0 : ℝ) = 0 then nan else if (0:ℝ) < 0 then pinf else ninf)
    else fin (0 / 0)) = nan
  rw [if_pos rfl, if_pos rfl]

lemma sqrtE_nan : sqrtE nan = nan := rfl

lemma sqrtE_fin_nonneg (a : ℝ) (ha : 0 ≤ a) : sqrtE (fin a) = fin (Real.sqrt a) := by
  show (if a < 0 then nan else fin (Real.sqrt a)) = fin (Real.sqrt a)
  rw [if_neg (not_lt.mpr ha)]

lemma foldl_add_fin_zero_replicate (m : ℕ) :
    (List.replicate m (fin 0)).foldl add (fin 0) = fin 0 := by
  induction m with
  | zero => rfl
  | succ k ih =>
    rw [List.replicate_succ]
    show (List.replicate k (fin 0)).foldl add (add (fin 0) (fin 0)) = fin 0
    have hz : add (fin 0) (fin 0) = fin 0 := by rw [add_fin_fin]; norm_num
    rw [hz]
    exact ih

lemma foldl_add_nan (l : List EF) : l.foldl add nan = nan := by
  induction l with
  | nil => rfl
  | cons x xs ih =>
    show xs.foldl add (add nan x) = nan
    rw [add_nan_left]
    exact ih

lemma foldl_add_replicate_nan (m : ℕ) (hm : m ≠ 0) :
    (List.replicate m nan).foldl add (fin 0) = nan := by
  cases m with
  | zero => omega
  | succ k =>
    rw [List.replicate_succ]
    show (List.replicate k nan).foldl add (add (fin 0) nan) = nan
    rw [add_nan_right]
    exact foldl_add_nan _

lemma meanE_replicate_zero (m : ℕ) (hm : m ≠ 0) :
    meanE (List.replicate m (fin 0)) = fin 0 := by
  unfold meanE
  rw [foldl_add_fin_zero_replicate, List.length_replicate]
  rw [div_fin_fin_ne 0 (m : ℝ) (Nat.cast_ne_zero.mpr hm)]
  norm_num

lemma meanE_replicate_nan (m : ℕ) (hm : m ≠ 0) :
    meanE (List.replicate m nan) = nan := by
  unfold meanE
  rw [foldl_add_replicate_nan m hm, div_nan_left]

lemma stdE_replicate_zero (m : ℕ) (hm : m ≠ 0) :
    stdE (List.replicate m (fin 0)) = fin 0 := by
  unfold stdE
  rw [meanE_replicate_zero m hm]
  have hmap : (List.replicate m (fin 0)).map (fun x => mul (sub x (fin 0)) (sub x (fin 0))) =
      List.replicate m (fin 0) := by
    rw [List.map_replicate]
    congr 1
    rw [sub_fin_fin, mul_fin_fin]
    norm_num
  rw [hmap, meanE_replicate_zero m hm, sqrtE_fin_nonneg 0 le_rfl, Real.sqrt_zero]

lemma stdE_replicate_nan (m : ℕ) (hm : m ≠ 0) :
    stdE (List.replicate m nan) = nan := by
  unfold stdE
  rw [meanE_replicate_nan m hm]
  have hmap : (List.replicate m nan).map (fun x => mul (sub x nan) (sub x nan)) =
      List.replicate m nan := by
    rw [List.map_replicate]
    rw [sub_nan_right, mul_nan_left]
  rw [hmap, meanE_replicate_nan m hm, sqrtE_nan]

end EF

lemma roundTo_nan (d : ℕ) : roundTo EF.nan d = EF.nan := rfl

lemma roundHalfEven_zero : roundHalfEven 0 = 0 := by
  unfold roundHalfEven
  rw [if_pos (by rw [Int.fract_zero]; norm_num)]
  exact Int.floor_zero

lemma roundTo_fin_zero (d : ℕ) : roundTo (EF.fin 0) d = EF.fin 0 := by
  show EF.fin (((roundHalfEven ((0 : ℝ) * 10 ^ d) : ℤ) : ℝ) / 10 ^ d) = EF.fin 0
  rw [zero_mul, roundHalfEven_zero]
  norm_num

lemma zipWith_replicate_le {α β γ : Type} (f : α → β → γ) (a : α) (b : β) (m k : ℕ)
    (h : m ≤ k) :
    List.zipWith f (List.replicate m a) (List.replicate k b) = List.replicate m (f a b) := by
  induction m generalizing k with
  | zero => simp
  | succ j ih =>
    cases k with
    | zero => omega
    | succ k2 =>
      rw [List.replicate_succ, List.replicate_succ, List.zipWith_cons_cons,
        ih k2 (by omega), ← List.replicate_succ]

lemma getLastD_replicate_succ (k : ℕ) (c : ℝ) : ∀ d : ℝ,
    (List.replicate (k + 1) c).getLastD d = c := by
  induction k with
  | zero => intro d; rfl
  | succ j ih =>
    intro d
    rw [List.replicate_succ, List.getLastD_cons]
    exact ih c

/-- C8 amended: for a constant series with nonzero level and length at
least 14, every scenario price (bullish, expected, bearish) equals the
reported current price and the volatility index is 0; for the all-zero
constant series the returns are 0/0 = NaN and the claim fails. -/
theorem forecast_flat (c : ℝ) (n p : ℕ) (hc : c ≠ 0) (hn : 14 ≤ n) :
    ∃ d, forecast (List.replicate n c) p = ForecastResult.ok d ∧
      d.bullish = d.current_price ∧ d.expected = d.current_price ∧
      d.bearish = d.current_price ∧ d.volatility_index = EF.fin 0 := by
  have hret : List.zipWith (fun a b => EF.div (EF.fin (a - b)) (EF.fin b))
      (List.replicate n c).tail (List.replicate n c) = List.replicate (n - 1) (EF.fin 0) := by
    rw [List.tail_replicate]
    rw [zipWith_replicate_le _ c c (n - 1) n (Nat.sub_le n 1)]
    rw [sub_self, EF.div_fin_fin_ne 0 c hc, zero_div]
  set m : ℕ := (n - 1) - ((n - 1) - 14) with hm
  have hm0 : m ≠ 0 := by omega
  have hdrop : (List.replicate (n - 1) (EF.fin 0)).drop
      ((List.replicate (n - 1) (EF.fin 0)).length - 14) = List.replicate m (EF.fin 0) := by
    rw [List.length_replicate, List.drop_replicate]
  have hlast : (List.replicate n c).getLastD 0 = c := by
    cases n with
    | zero => omega
    | succ k => exact getLastD_replicate_succ k c 0
  unfold forecast
  rw [if_neg (by rw [List.length_replicate]; omega)]
  refine ⟨_, rfl, ?_, ?_, ?_, ?_⟩ <;>
    simp only [hret, hdrop, EF.meanE_replicate_zero m hm0, EF.stdE_replicate_zero m hm0,
      hlast, EF.mul_fin_fin, EF.add_fin_fin, EF.sub_fin_fin, zero_mul, mul_zero,
      add_zero, sub_zero, mul_one, roundTo_fin_zero]

/-- C8 counterexample: on the all-zero constant series of length 14 the
returns are `0/0` (NaN), so the volatility index and the scenario prices
are NaN, not the current price and 0 that the claim asserts for every
constant series. -/
theorem forecast_flat_zero_cex :
    ∃ d, forecast (List.replicate 14 (0 : ℝ)) 7 = ForecastResult.ok d ∧
      d.current_price = EF.fin 0 ∧ d.volatility_index = EF.nan ∧ d.bullish = EF.nan ∧
      d.volatility_index ≠ EF.fin 0 ∧ d.bullish ≠ d.current_price := by
  have hret : List.zipWith (fun a b => EF.div (EF.fin (a - b)) (EF.fin b))
      (List.replicate 14 (0 : ℝ)).tail (List.replicate 14 (0 : ℝ)) =
      List.replicate 13 EF.nan := by
    rw [List.tail_replicate]
    rw [zipWith_replicate_le _ (0 : ℝ) (0 : ℝ) 13 14 (by omega)]
    rw [sub_self, EF.div_fin_zero_zero]
  have hdrop : (List.replicate 13 EF.nan).drop ((List.replicate 13 EF.nan).length - 14) =
      List.replicate 13 EF.nan := by
    rw [List.length_replicate]
    norm_num
  have hlast : (List.replicate 14 (0 : ℝ)).getLastD 0 = 0 := getLastD_replicate_succ 13 0 0
  have h13 : (13 : ℕ) ≠ 0 := by omega
  unfold forecast
  rw [if_neg (by rw [List.length_replicate]; omega)]
  refine ⟨_, rfl, ?_, ?_, ?_, ?_, ?_⟩ <;>
    simp only [hret, hdrop, EF.meanE_replicate_nan 13 h13, EF.stdE_replicate_nan 13 h13,
      hlast, EF.mul_nan_left, EF.mul_nan_right, EF.add_nan_left, EF.add_nan_right,
      EF.sub_nan_left, EF.sub_nan_right, roundTo_nan, roundTo_fin_zero]
  · intro hcon
    cases hcon
  · intro hcon
    cases hcon

/-- C8 witness: the flat-series property instantiated at level 1, length
14, horizon 7. -/
theorem forecast_flat_witness :
    ∃ d, forecast (List.replicate 14 (1 : ℝ)) 7 = ForecastResult.ok d ∧
      d.bullish = d.current_price ∧ d.expected = d.current_price ∧
      d.bearish = d.current_price ∧ d.volatility_index = EF.fin 0 :=
  forecast_flat 1 14 7 (by norm_num) (by norm_num)
